import Mathlib

/-!
Verification of the stream-normalization pipeline
(`transformAgentStreamToUIStream` in the chat route) and of the
evaluation-job polling store (`evaluation-store.ts`) of the repository.

The embedding follows the source:

* `transformAgentStreamToUIStream` reads byte chunks, decodes them with a
  streaming `TextDecoder`, splits the accumulated text on `'\n'`, keeps the
  trailing fragment in `buffer`, and for each complete line either skips it
  (blank / comment), or — for lines starting with the six characters
  `data: ` — parses the rest as JSON and switches on the `type` field,
  enqueueing canonical events.  The locals `currentText`, `sources` and
  `classification` of the source are write-only with respect to the
  enqueued events (`currentText` and `classification` are never read, and
  `sources` is read only inside the same `case` that assigns it, which the
  model inlines), so the per-line emission is a pure function of the line.

* The polling store keeps a `Map` from job id to interval handle; we model
  the JS `Map` as an insertion-ordered association list and the tick
  callback of `setInterval` as a pure step on the store state that reports
  how many remote results fetches it performed.
-/

/-- JSON values as produced by `JSON.parse`.  Numbers keep their source
lexeme: nothing in the pipeline computes with numbers, it only tests
truthiness, which the lexeme determines. -/
inductive Json where
  | null : Json
  | bool (b : Bool) : Json
  | num (lexeme : String) : Json
  | str (s : String) : Json
  | arr (elems : List Json) : Json
  | obj (fields : List (String × Json)) : Json

/-- Skip JSON whitespace (space, tab, newline, carriage return). -/
def skipWs : List Char → List Char
  | [] => []
  | c :: cs => if c = ' ' ∨ c = '\t' ∨ c = '\n' ∨ c = '\r' then skipWs cs else c :: cs

/-- Value of one hexadecimal digit. -/
def hexVal (c : Char) : Option Nat :=
  if '0' ≤ c ∧ c ≤ '9' then some (c.toNat - 48)
  else if 'a' ≤ c ∧ c ≤ 'f' then some (c.toNat - 87)
  else if 'A' ≤ c ∧ c ≤ 'F' then some (c.toNat - 55)
  else none

/-- One-character string escapes of JSON. -/
def escChar (c : Char) : Option Char :=
  if c = '"' then some '"'
  else if c = '\\' then some '\\'
  else if c = '/' then some '/'
  else if c = 'b' then some (Char.ofNat 8)
  else if c = 'f' then some (Char.ofNat 12)
  else if c = 'n' then some '\n'
  else if c = 'r' then some '\r'
  else if c = 't' then some '\t'
  else none

/-- Body of a JSON string after the opening quote: returns the decoded
characters and the input following the closing quote.  Raw control
characters are rejected, as by `JSON.parse`. -/
def parseStrBody : List Char → Option (List Char × List Char)
  | [] => none
  | '"' :: rest => some ([], rest)
  | '\\' :: 'u' :: a :: b :: c :: d :: rest =>
    match hexVal a, hexVal b, hexVal c, hexVal d with
    | some ha, some hb, some hc, some hd =>
      (parseStrBody rest).map
        (fun p => (Char.ofNat (((ha * 16 + hb) * 16 + hc) * 16 + hd) :: p.1, p.2))
    | _, _, _, _ => none
  | '\\' :: e :: rest =>
    match escChar e with
    | some c => (parseStrBody rest).map (fun p => (c :: p.1, p.2))
    | none => none
  | c :: rest =>
    if c.toNat < 32 then none
    else (parseStrBody rest).map (fun p => (c :: p.1, p.2))

/-- Digits of a JSON number component. -/
def takeDigits (cs : List Char) : List Char × List Char :=
  (cs.takeWhile Char.isDigit, cs.dropWhile Char.isDigit)

/-- Integer part of a JSON number (no leading zeros). -/
def parseIntPart : List Char → Option (List Char × List Char)
  | '0' :: r => some (['0'], r)
  | c :: r =>
    if c.isDigit then some (c :: (takeDigits r).1, (takeDigits r).2) else none
  | [] => none

/-- Fractional part of a JSON number, empty if absent. -/
def parseFracPart : List Char → Option (List Char × List Char)
  | '.' :: r =>
    if (takeDigits r).1 = [] then none
    else some ('.' :: (takeDigits r).1, (takeDigits r).2)
  | cs => some ([], cs)

/-- Exponent part of a JSON number, empty if absent. -/
def parseExpPart : List Char → Option (List Char × List Char)
  | e :: r =>
    if e = 'e' ∨ e = 'E' then
      match r with
      | s :: r2 =>
        if s = '+' ∨ s = '-' then
          if (takeDigits r2).1 = [] then none
          else some (e :: s :: (takeDigits r2).1, (takeDigits r2).2)
        else if (takeDigits r).1 = [] then none
        else some (e :: (takeDigits r).1, (takeDigits r).2)
      | [] => none
    else some ([], e :: r)
  | [] => some ([], [])

/-- Lexeme of a JSON number starting at the input, and the rest. -/
def parseNumLex (cs : List Char) : Option (List Char × List Char) :=
  match cs with
  | '-' :: r =>
    match parseIntPart r with
    | some (ip, r1) =>
      match parseFracPart r1 with
      | some (fp, r2) =>
        match parseExpPart r2 with
        | some (ep, r3) => some ('-' :: (ip ++ fp ++ ep), r3)
        | none => none
      | none => none
    | none => none
  | _ =>
    match parseIntPart cs with
    | some (ip, r1) =>
      match parseFracPart r1 with
      | some (fp, r2) =>
        match parseExpPart r2 with
        | some (ep, r3) => some (ip ++ fp ++ ep, r3)
        | none => none
      | none => none
    | none => none

mutual

/-- Fueled recursive-descent parser for one JSON value; the fuel bounds
nesting and is always sufficient at `length + 1`. -/
def parseVal : Nat → List Char → Option (Json × List Char)
  | 0, _ => none
  | Nat.succ fuel, cs =>
    match skipWs cs with
    | '{' :: rest =>
      match skipWs rest with
      | '}' :: r => some (.obj [], r)
      | cs2 =>
        match parseMembers fuel cs2 with
        | some (fs, r) => some (.obj fs, r)
        | none => none
    | '[' :: rest =>
      match skipWs rest with
      | ']' :: r => some (.arr [], r)
      | cs2 =>
        match parseElems fuel cs2 with
        | some (es, r) => some (.arr es, r)
        | none => none
    | '"' :: rest => (parseStrBody rest).map (fun p => (.str p.1.asString, p.2))
    | 't' :: 'r' :: 'u' :: 'e' :: r => some (.bool true, r)
    | 'f' :: 'a' :: 'l' :: 's' :: 'e' :: r => some (.bool false, r)
    | 'n' :: 'u' :: 'l' :: 'l' :: r => some (.null, r)
    | cs2 =>
      match parseNumLex cs2 with
      | some (lex, r) => some (.num lex.asString, r)
      | none => none

/-- Members of a JSON object after the opening brace (non-empty case). -/
def parseMembers : Nat → List Char → Option (List (String × Json) × List Char)
  | 0, _ => none
  | Nat.succ fuel, cs =>
    match skipWs cs with
    | '"' :: rest =>
      match parseStrBody rest with
      | some (k, r1) =>
        match skipWs r1 with
        | ':' :: r2 =>
          match parseVal fuel r2 with
          | some (v, r3) =>
            match skipWs r3 with
            | ',' :: r4 =>
              (parseMembers fuel r4).map (fun p => ((k.asString, v) :: p.1, p.2))
            | '}' :: r4 => some ([(k.asString, v)], r4)
            | _ => none
          | none => none
        | _ => none
      | none => none
    | _ => none

/-- Elements of a JSON array after the opening bracket (non-empty case). -/
def parseElems : Nat → List Char → Option (List Json × List Char)
  | 0, _ => none
  | Nat.succ fuel, cs =>
    match parseVal fuel cs with
    | some (v, r) =>
      match skipWs r with
      | ',' :: r2 => (parseElems fuel r2).map (fun p => (v :: p.1, p.2))
      | ']' :: r2 => some ([v], r2)
      | _ => none
    | none => none

end

/-- `JSON.parse`: one value covering the whole input (up to whitespace). -/
def parseJson (cs : List Char) : Option Json :=
  match parseVal (cs.length + 1) cs with
  | some (v, rest) => if skipWs rest = [] then some v else none
  | none => none

/-- Last binding of a key in a field list — `JSON.parse` keeps the last
duplicate key, and JS property lookup sees that one. -/
def lookupLast : List (String × Json) → String → Option Json
  | [], _ => none
  | f :: rest, k =>
    match lookupLast rest k with
    | some v => some v
    | none => if f.1 = k then some f.2 else none

/-- JS property access `j[k]`: `none` models `undefined`. -/
def getField (j : Json) (k : String) : Option Json :=
  match j with
  | .obj fs => lookupLast fs k
  | _ => none

/-- Whether a JSON number lexeme denotes a nonzero value: some mantissa
digit (before any exponent marker) is not `'0'`. -/
def numNonzero (lex : String) : Bool :=
  (lex.toList.takeWhile (fun c => c ≠ 'e' ∧ c ≠ 'E')).any
    (fun c => c.isDigit && c != '0')

/-- JS truthiness of a value (`none` = `undefined`). -/
def jsTruthy : Option Json → Bool
  | none => false
  | some .null => false
  | some (.bool b) => b
  | some (.num lex) => numNonzero lex
  | some (.str s) => s != ""
  | some (.arr _) => true
  | some (.obj _) => true

/-- JS `a || d`: the left value if truthy, otherwise the default. -/
def jsOr (o : Option Json) (d : Json) : Json :=
  match o with
  | some j => if jsTruthy (some j) then j else d
  | none => d

/-- JS optional chaining `o?.k`: `undefined` when the base is `null` or
`undefined`, ordinary property access otherwise. -/
def optChain (o : Option Json) (k : String) : Option Json :=
  match o with
  | none => none
  | some .null => none
  | some j => getField j k

/-- One mapped source record, as built in the `sources` case:
`title: s.metadata?.source || 'Document'`, `url: s.metadata?.source || '#'`,
`content: s.content`, `relevance_score: s.relevance_score`,
`page: s.metadata?.page`, `chunk_index: s.metadata?.chunk_index`. -/
structure MappedSource where
  title : Json
  url : Json
  content : Option Json
  relevance_score : Option Json
  page : Option Json
  chunk_index : Option Json

/-- The per-source mapping of the `sources` case of the switch. -/
def mapSource (s : Json) : MappedSource :=
  { title := jsOr (optChain (getField s "metadata") "source") (.str "Document")
    url := jsOr (optChain (getField s "metadata") "source") (.str "#")
    content := getField s "content"
    relevance_score := getField s "relevance_score"
    page := optChain (getField s "metadata") "page"
    chunk_index := optChain (getField s "metadata") "chunk_index" }

/-- Canonical events enqueued by `transformAgentStreamToUIStream`.  The
source enqueues `{type: 'text-delta', textDelta: data.content}`,
`{type: 'data', data: {sources: …, num_sources: …}}` and
`{type: 'finish', finishReason: 'stop', usage: {promptTokens: 0,
completionTokens: 0, totalTokens: 0}}`.  No error-carrying canonical event
is ever enqueued by the source (stream-level failures go through
`controller.error`, outside the event vocabulary). -/
inductive CanonicalEvent where
  | textDelta (content : Option Json) : CanonicalEvent
  | dataAnn (sources : List MappedSource) (numSources : Nat) : CanonicalEvent
  | finish (finishReason : String)
      (promptTokens completionTokens totalTokens : Nat) : CanonicalEvent

/-- The `type` discriminator of a parsed data payload, when it is a
string (the `switch` only ever matches string tags). -/
def typeTag (d : Json) : Option String :=
  match getField d "type" with
  | some (.str s) => some s
  | _ => none

/-- `data.sources || []` followed by `.map`: `some` elements when the map
can run (an array, or the empty default when falsy), `none` when the
truthy non-array value would make `.map` throw inside the `try`. -/
def sourcesArr (o : Option Json) : Option (List Json) :=
  if jsTruthy o then
    match o with
    | some (.arr xs) => some xs
    | _ => none
  else some []

/-- The `switch (data.type)` of `transformAgentStreamToUIStream`: canonical
events enqueued for one parsed data payload.  `token` emits a text delta,
`classification` only stores (no event), `sources` emits one data
annotation, `done` emits one finish; every other tag — including `error`,
for which the switch has no case — falls through and emits nothing.
There is no `finished` flag in the source: the switch is re-entered for
every later payload unchanged. -/
def normalizeEvent (d : Json) : List CanonicalEvent :=
  match typeTag d with
  | some s =>
    if s = "token" then [.textDelta (getField d "content")]
    else if s = "classification" then []
    else if s = "sources" then
      match sourcesArr (getField d "sources") with
      | some xs => [.dataAnn (xs.map mapSource) xs.length]
      | none => []
    else if s = "done" then [.finish "stop" 0 0 0]
    else []
  | none => []

/-- Normalization of a whole sequence of parsed data payloads. -/
def processEvents : List Json → List CanonicalEvent
  | [] => []
  | d :: ds => normalizeEvent d ++ processEvents ds

/-- Whitespace for JS `String.prototype.trim` (the characters that can
occur in a decoded line). -/
def isJsWsChar (c : Char) : Bool :=
  c = ' ' || c = '\t' || c = '\n' || c = '\r' || c = '\x0b' || c = '\x0c'

/-- `!line.trim()`: the line is empty or all whitespace. -/
def blankLine (l : List Char) : Bool := l.all isJsWsChar

/-- The six-character marker `data: ` checked by
`line.startsWith('data: ')`. -/
def dataMarker : List Char := ['d', 'a', 't', 'a', ':', ' ']

/-- Data payload of one line: `none` for skipped lines (blank, comment,
other prefix) and for `data: ` lines whose payload fails `JSON.parse`. -/
def parseLine (l : List Char) : Option Json :=
  if blankLine l then none
  else if l.head? = some ':' then none
  else if dataMarker.isPrefixOf l then parseJson (l.drop 6)
  else none

/-- Canonical events enqueued while handling one decoded line. -/
def processLine (l : List Char) : List CanonicalEvent :=
  match parseLine l with
  | some d => normalizeEvent d
  | none => []

/-- Canonical events enqueued over a sequence of decoded lines. -/
def processLines : List (List Char) → List CanonicalEvent
  | [] => []
  | l :: ls => processLine l ++ processLines ls

/-! ### Frame decoder

The source decodes each chunk with a streaming `TextDecoder`
(`decoder.decode(value, { stream: true })`), appends the text to `buffer`,
splits `buffer` on `'\n'`, emits the complete lines and keeps the final
fragment (`buffer = lines.pop() || ''`); when the upstream closes, any
remaining fragment is dropped.  The `TextDecoder` is embedded as a
byte-at-a-time UTF-8 automaton whose state is the incomplete multi-byte
sequence collected so far; malformed input is replaced with U+FFFD (the
non-fatal decoder behaviour, approximated for overlong/surrogate encodings
by `Char.ofNat`'s fallback, which no claim exercises). -/

/-- Replacement character U+FFFD. -/
def replChar : Char := Char.ofNat 0xFFFD

/-- Total length of a UTF-8 sequence with the given lead byte. -/
def expLen (l : Nat) : Nat :=
  if l < 0xE0 then 2 else if l < 0xF0 then 3 else 4

/-- Scalar value of a complete UTF-8 sequence. -/
def decodeSeq : List Nat → Char
  | [b] => Char.ofNat b
  | [l, c] => Char.ofNat ((l - 0xC0) * 0x40 + (c - 0x80))
  | [l, c1, c2] => Char.ofNat ((l - 0xE0) * 0x1000 + (c1 - 0x80) * 0x40 + (c2 - 0x80))
  | [l, c1, c2, c3] =>
    Char.ofNat ((l - 0xF0) * 0x40000 + (c1 - 0x80) * 0x1000 + (c2 - 0x80) * 0x40 + (c3 - 0x80))
  | _ => replChar

/-- Whether a byte is a UTF-8 continuation byte. -/
def isCont (b : Nat) : Bool := decide (0x80 ≤ b ∧ b < 0xC0)

/-- One byte of streaming UTF-8 decoding: emitted characters and the new
pending (incomplete-sequence) state. -/
def utf8Step (pending : List Nat) (b : Nat) : List Char × List Nat :=
  match pending with
  | [] =>
    if b < 0x80 then ([Char.ofNat b], [])
    else if b < 0xC0 then ([replChar], [])
    else if b < 0xF8 then ([], [b])
    else ([replChar], [])
  | l :: rest =>
    if isCont b then
      if (l :: rest ++ [b]).length = expLen l then ([decodeSeq (l :: rest ++ [b])], [])
      else ([], l :: rest ++ [b])
    else
      if b < 0x80 then ([replChar, Char.ofNat b], [])
      else if b < 0xF8 then ([replChar], [b])
      else ([replChar, replChar], [])

/-- Streaming UTF-8 decoding of a byte list from a pending state. -/
def utf8Run : List Nat → List Nat → List Char × List Nat
  | p, [] => ([], p)
  | p, b :: bs =>
    ((utf8Step p b).1 ++ (utf8Run (utf8Step p b).2 bs).1,
     (utf8Run (utf8Step p b).2 bs).2)

/-- Split text into the complete `'\n'`-terminated lines and the trailing
fragment — the effect of `buffer.split('\n')` followed by
`buffer = lines.pop() || ''`. -/
def splitLines : List Char → List (List Char) × List Char
  | [] => ([], [])
  | c :: cs =>
    if c = '\n' then ([] :: (splitLines cs).1, (splitLines cs).2)
    else
      match splitLines cs with
      | ([], t) => ([], c :: t)
      | (l :: ls, t) => ((c :: l) :: ls, t)

/-- Decoder state across chunks: the `TextDecoder`'s pending bytes and the
`buffer` fragment of the current unterminated line. -/
structure DecodeState where
  pending : List Nat
  buffer : List Char
deriving DecidableEq

/-- Processing of one chunk: decode, append to the buffer, split, emit the
complete lines, keep the fragment. -/
def feedChunk (st : DecodeState) (chunk : List Nat) : List (List Char) × DecodeState :=
  ((splitLines (st.buffer ++ (utf8Run st.pending chunk).1)).1,
   ⟨(utf8Run st.pending chunk).2,
    (splitLines (st.buffer ++ (utf8Run st.pending chunk).1)).2⟩)

/-- Processing of a chunk sequence; on upstream close the loop breaks and
the final fragment is discarded. -/
def feedChunks : DecodeState → List (List Nat) → List (List Char) × DecodeState
  | st, [] => ([], st)
  | st, c :: cs =>
    ((feedChunk st c).1 ++ (feedChunks (feedChunk st c).2 cs).1,
     (feedChunks (feedChunk st c).2 cs).2)

/-- Decoded lines emitted for a whole chunked byte stream. -/
def decodeLines (chunks : List (List Nat)) : List (List Char) :=
  (feedChunks ⟨[], []⟩ chunks).1

/-- The whole pipeline of `transformAgentStreamToUIStream`: byte chunks in,
canonical events out (the events enqueued before `controller.close()`). -/
def transformAgentStreamToUIStream (chunks : List (List Nat)) : List CanonicalEvent :=
  processLines (decodeLines chunks)

/-- UTF-8 bytes of an ASCII string (identity on code points). -/
def asciiBytes (s : String) : List Nat := s.toList.map Char.toNat

/-! ### Evaluation polling store (`evaluation-store.ts`) -/

/-- One evaluation job record, per `EvaluationJob` in `lib/types/query.ts`.
`status` is one of the strings `queued`, `running`, `completed`, `failed`;
the store compares it with string equality. -/
structure EvaluationJob where
  job_id : String
  dataset_id : String
  retrieval_method : String
  k_values : List Nat
  status : String
  progress : Option Nat
  created_at : String
  started_at : Option String
  completed_at : Option String
  error : Option String
deriving DecidableEq

/-- The store state touched by polling: the `jobs` array and the
`pollingIntervals` map (a JS `Map`, modelled as an insertion-ordered
association list from job id to interval handle).  The remaining store
fields (`datasets`, `currentResults`, `isLoading`, `error`, …) do not
influence the polling control flow and are not modelled; the results
fetch of a tick is reported as a count instead. -/
structure StoreState where
  jobs : List EvaluationJob
  pollingIntervals : List (String × Nat)
deriving DecidableEq

/-- `Map.prototype.has`. -/
def mapHas (m : List (String × Nat)) (k : String) : Bool :=
  m.any (fun p => p.1 = k)

/-- `Map.prototype.get`: value bound to the key (keys are unique in a JS
`Map`, so lookup by first occurrence). -/
def mapGet : List (String × Nat) → String → Option Nat
  | [], _ => none
  | p :: m, k => if p.1 = k then some p.2 else mapGet m k

/-- `Map.prototype.set`: update in place if the key exists, else append. -/
def mapSet (m : List (String × Nat)) (k : String) (v : Nat) : List (String × Nat) :=
  if mapHas m k then m.map (fun p => if p.1 = k then (k, v) else p)
  else m ++ [(k, v)]

/-- `Map.prototype.delete`. -/
def mapDelete (m : List (String × Nat)) (k : String) : List (String × Nat) :=
  m.filter (fun p => p.1 ≠ k)

/-- `startPolling(jobId, intervalMs)`: no-op when a handle already exists,
otherwise register the interval handle created by `setInterval` (the
handle value is supplied by the environment). -/
def startPolling (st : StoreState) (jobId : String) (intervalId : Nat) : StoreState :=
  if mapHas st.pollingIntervals jobId then st
  else { st with pollingIntervals := mapSet st.pollingIntervals jobId intervalId }

/-- `stopPolling(jobId)`: `clearInterval` and remove the entry when one is
registered, no-op otherwise. -/
def stopPolling (st : StoreState) (jobId : String) : StoreState :=
  match mapGet st.pollingIntervals jobId with
  | some _ => { st with pollingIntervals := mapDelete st.pollingIntervals jobId }
  | none => st

/-- The `jobs: state.jobs.map(...)` update applied after a status fetch. -/
def updateJob (st : StoreState) (jobId : String) (job : EvaluationJob) : StoreState :=
  { st with jobs := st.jobs.map (fun j => if j.job_id = jobId then job else j) }

/-- One firing of the `setInterval` callback of `startPolling`.  The input
is the outcome of `ragTesterClient.getJobStatus(jobId)`: `some job` on
success, `none` on a thrown transport error.  The second component counts
the `fetchResults(jobId)` calls the tick performs. -/
def pollTick (st : StoreState) (jobId : String) (res : Option EvaluationJob) :
    StoreState × Nat :=
  match res with
  | some job =>
    if job.status = "completed" ∨ job.status = "failed" then
      if job.status = "completed" then (stopPolling (updateJob st jobId job) jobId, 1)
      else (stopPolling (updateJob st jobId job) jobId, 0)
    else (updateJob st jobId job, 0)
  | none => (stopPolling st jobId, 0)

/-- Scheduler for the interval timer of one job: a tick fires only while
the job's handle is registered (after `clearInterval` no further callback
runs).  Returns the final state, the number of status fetches performed,
and the number of results fetches performed. -/
def runTicks : StoreState → String → List (Option EvaluationJob) → StoreState × Nat × Nat
  | st, _, [] => (st, 0, 0)
  | st, j, r :: rs =>
    if mapHas st.pollingIntervals j then
      ((runTicks (pollTick st j r).1 j rs).1,
       1 + (runTicks (pollTick st j r).1 j rs).2.1,
       (pollTick st j r).2 + (runTicks (pollTick st j r).1 j rs).2.2)
    else (st, 0, 0)

/-- Number of finish events in a canonical event sequence. -/
def countFinish (es : List CanonicalEvent) : Nat :=
  es.countP (fun e => match e with | .finish _ _ _ _ => true | _ => false)

/-- Number of `done`-tagged payloads in a data-payload sequence. -/
def countDone (ds : List Json) : Nat :=
  ds.countP (fun d => decide (typeTag d = some "done"))

/-- Contents carried by the text-delta events of a sequence, in order. -/
def textDeltas (es : List CanonicalEvent) : List (Option Json) :=
  es.filterMap (fun e => match e with | .textDelta c => some c | _ => none)

/-- `content` fields of the `token`-tagged payloads, in arrival order. -/
def tokenContents (ds : List Json) : List (Option Json) :=
  (ds.filter (fun d => decide (typeTag d = some "token"))).map
    (fun d => getField d "content")

/-- Concatenation of the string contents of a content list (non-string
contents contribute nothing). -/
def concatTexts (cs : List (Option Json)) : String :=
  String.join (cs.map (fun o => match o with | some (.str s) => s | _ => ""))

/-- Whether a decoded line is a `done` data line: a `data: ` line whose
payload parses and is tagged `done`. -/
def lineIsDone (l : List Char) : Bool :=
  match parseLine l with
  | some d => decide (typeTag d = some "done")
  | none => false

/-- Number of entries of the handle map registered under a key. -/
def countKey (m : List (String × Nat)) (k : String) : Nat :=
  m.countP (fun p => decide (p.1 = k))

/-! ### Decoder lemmas -/

/-- Streaming UTF-8 decoding composes over concatenation of byte lists. -/
theorem utf8Run_append (a : List Nat) :
    ∀ (p b : List Nat),
      utf8Run p (a ++ b) =
        ((utf8Run p a).1 ++ (utf8Run (utf8Run p a).2 b).1,
         (utf8Run (utf8Run p a).2 b).2) := by
  induction a with
  | nil => intro p b; simp [utf8Run]
  | cons x xs ih =>
    intro p b
    simp only [List.cons_append, utf8Run, List.append_eq]
    rw [ih]
    simp [List.append_assoc]

/-- Line splitting composes: splitting `a ++ b` is splitting `a`, then
splitting its fragment prefixed to `b`. -/
theorem splitLines_append (a : List Char) :
    ∀ b : List Char,
      splitLines (a ++ b) =
        ((splitLines a).1 ++ (splitLines ((splitLines a).2 ++ b)).1,
         (splitLines ((splitLines a).2 ++ b)).2) := by
  induction a with
  | nil => intro b; simp [splitLines]
  | cons c cs ih =>
    intro b
    by_cases hc : c = '\n'
    · subst hc
      have hpos : ∀ ds : List Char,
          splitLines ('\n' :: ds) = ([] :: (splitLines ds).1, (splitLines ds).2) := by
        intro ds; simp [splitLines]
      rw [List.cons_append, hpos (cs ++ b), ih b, hpos cs]
      simp
    · have hneg : ∀ ds : List Char,
          splitLines (c :: ds) =
            (match splitLines ds with
             | ([], t) => ([], c :: t)
             | (l :: ls, t) => ((c :: l) :: ls, t)) := by
        intro ds; simp [splitLines, hc]
      rcases h1 : splitLines cs with ⟨ls, t⟩
      have h2 := ih b
      rw [h1] at h2
      rcases h3 : splitLines (t ++ b) with ⟨ls2, t2⟩
      rw [h3] at h2
      cases ls with
      | nil =>
        simp only [List.nil_append] at h2
        have hcc : splitLines (c :: cs) = ([], c :: t) := by rw [hneg cs, h1]
        rw [List.cons_append, hneg (cs ++ b), h2, hcc]
        simp [hneg (t ++ b), h3]
      | cons l ls' =>
        simp only [List.cons_append] at h2
        have hcc : splitLines (c :: cs) = ((c :: l) :: ls', t) := by rw [hneg cs, h1]
        rw [List.cons_append, hneg (cs ++ b), h2, hcc]
        simp [hneg (t ++ b), h3]

/-- The fragment left by line splitting contains no terminator. -/
theorem splitLines_frag_noNL (s : List Char) : '\n' ∉ (splitLines s).2 := by
  induction s with
  | nil => simp [splitLines]
  | cons c cs ih =>
    by_cases hc : c = '\n'
    · simpa [splitLines, hc] using ih
    · rcases h1 : splitLines cs with ⟨ls, t⟩
      have ih2 : '\n' ∉ t := by
        rw [h1] at ih
        exact ih
      cases ls with
      | nil =>
        simp only [splitLines, hc, if_false, h1, List.mem_cons, not_or]
        exact ⟨fun h' => hc h'.symm, ih2⟩
      | cons l ls' => simpa [splitLines, hc, h1] using ih2

/-- Splitting text without terminators emits no line. -/
theorem splitLines_noNL (s : List Char) (h : '\n' ∉ s) : splitLines s = ([], s) := by
  induction s with
  | nil => simp [splitLines]
  | cons c cs ih =>
    have hc : c ≠ '\n' := fun hcc => h (hcc ▸ List.mem_cons_self c cs)
    have ih2 := ih (fun hm => h (List.mem_cons_of_mem c hm))
    simp [splitLines, hc, ih2]

/-- Chunk processing composes over concatenation of chunks. -/
theorem feedChunk_append (st : DecodeState) (a b : List Nat) :
    feedChunk st (a ++ b) =
      ((feedChunk st a).1 ++ (feedChunk (feedChunk st a).2 b).1,
       (feedChunk (feedChunk st a).2 b).2) := by
  simp only [feedChunk, utf8Run_append a]
  rw [← List.append_assoc]
  rw [splitLines_append (st.buffer ++ (utf8Run st.pending a).1)]

/-- Feeding a chunk list is feeding its concatenation as one chunk,
provided the pending line fragment holds no terminator (as in every
reachable state). -/
theorem feedChunks_join (chunks : List (List Nat)) :
    ∀ st : DecodeState, '\n' ∉ st.buffer →
      feedChunks st chunks = feedChunk st chunks.flatten := by
  induction chunks with
  | nil =>
    intro st h
    simp [feedChunks, feedChunk, utf8Run, splitLines_noNL st.buffer h]
  | cons c cs ih =>
    intro st h
    have hfrag : '\n' ∉ (feedChunk st c).2.buffer := by
      simp only [feedChunk]
      exact splitLines_frag_noNL _
    have hflat : (c :: cs).flatten = c ++ cs.flatten := rfl
    simp only [feedChunks]
    rw [ih _ hfrag, hflat, feedChunk_append]

/-- The decoded line sequence depends only on the byte stream, not on its
chunking. -/
theorem decodeLines_eq_of_join_eq (cs1 cs2 : List (List Nat))
    (h : cs1.flatten = cs2.flatten) : decodeLines cs1 = decodeLines cs2 := by
  unfold decodeLines
  rw [feedChunks_join cs1 ⟨[], []⟩ (by simp), feedChunks_join cs2 ⟨[], []⟩ (by simp), h]

/-! ### Normalizer lemmas -/

/-- A `done`-tagged payload makes the switch emit exactly the finish
event. -/
theorem normalizeEvent_done (d : Json) (h : typeTag d = some "done") :
    normalizeEvent d = [.finish "stop" 0 0 0] := by
  unfold normalizeEvent
  simp [h]

/-- An `error`-tagged payload falls through the switch: nothing is
emitted. -/
theorem normalizeEvent_error (d : Json) (h : typeTag d = some "error") :
    normalizeEvent d = [] := by
  unfold normalizeEvent
  simp [h]

/-- The switch emits a finish exactly for `done`-tagged payloads. -/
theorem countFinish_normalizeEvent (d : Json) :
    countFinish (normalizeEvent d) = if typeTag d = some "done" then 1 else 0 := by
  unfold normalizeEvent
  cases h : typeTag d with
  | none => simp [countFinish]
  | some s =>
    by_cases h1 : s = "token"
    · simp [h1, countFinish]
    · by_cases h2 : s = "classification"
      · simp [h1, h2, countFinish]
      · by_cases h3 : s = "sources"
        · rcases hs : sourcesArr (getField d "sources") with _ | xs <;>
            simp [h1, h2, h3, hs, countFinish]
        · by_cases h4 : s = "done"
          · simp [h1, h2, h3, h4, countFinish]
          · simp [h1, h2, h3, h4, countFinish]

/-- The switch emits a text delta carrying `data.content` exactly for
`token`-tagged payloads. -/
theorem textDeltas_normalizeEvent (d : Json) :
    textDeltas (normalizeEvent d) =
      if typeTag d = some "token" then [getField d "content"] else [] := by
  unfold normalizeEvent
  cases h : typeTag d with
  | none => simp [textDeltas]
  | some s =>
    by_cases h1 : s = "token"
    · simp [h1, textDeltas]
    · by_cases h2 : s = "classification"
      · simp [h1, h2, textDeltas]
      · by_cases h3 : s = "sources"
        · rcases hs : sourcesArr (getField d "sources") with _ | xs <;>
            simp [h1, h2, h3, hs, textDeltas]
        · by_cases h4 : s = "done"
          · simp [h1, h2, h3, h4, textDeltas]
          · simp [h1, h2, h3, h4, textDeltas]

/-- Normalization distributes over concatenation of payload sequences. -/
theorem processEvents_append (a b : List Json) :
    processEvents (a ++ b) = processEvents a ++ processEvents b := by
  induction a with
  | nil => simp [processEvents]
  | cons d ds ih => simp [processEvents, ih]

/-- Finish events emitted over a payload sequence are exactly its `done`
payloads. -/
theorem countFinish_processEvents (ds : List Json) :
    countFinish (processEvents ds) = countDone ds := by
  induction ds with
  | nil => simp [processEvents, countFinish, countDone]
  | cons d ds ih =>
    simp only [processEvents, countDone, List.countP_cons]
    rw [show countFinish (normalizeEvent d ++ processEvents ds) =
          countFinish (normalizeEvent d) + countFinish (processEvents ds) from
        List.countP_append _ _ _]
    rw [countFinish_normalizeEvent d, ih]
    simp only [countDone]
    by_cases h : typeTag d = some "done"
    · simp [h]; omega
    · simp [h]

/-- Text-delta contents over a payload sequence are the `content` fields
of its `token` payloads, in arrival order. -/
theorem textDeltas_processEvents (ds : List Json) :
    textDeltas (processEvents ds) = tokenContents ds := by
  induction ds with
  | nil => simp [processEvents, textDeltas, tokenContents]
  | cons d ds ih =>
    simp only [processEvents, tokenContents, List.filter_cons]
    rw [show textDeltas (normalizeEvent d ++ processEvents ds) =
          textDeltas (normalizeEvent d) ++ textDeltas (processEvents ds) from
        List.filterMap_append _ _ _]
    rw [textDeltas_normalizeEvent d, ih]
    by_cases h : typeTag d = some "token"
    · simp [h, tokenContents]
    · simp [h, tokenContents]

/-- Per-line emission distributes over concatenation of line sequences. -/
theorem processLines_append (a b : List (List Char)) :
    processLines (a ++ b) = processLines a ++ processLines b := by
  induction a with
  | nil => simp [processLines]
  | cons l ls ih => simp [processLines, ih]

/-- One line yields a finish exactly when it is a `done` data line. -/
theorem countFinish_processLine (l : List Char) :
    countFinish (processLine l) = if lineIsDone l then 1 else 0 := by
  unfold processLine lineIsDone
  cases h : parseLine l with
  | none => simp [countFinish]
  | some d =>
    rw [countFinish_normalizeEvent d]
    simp

/-- Finish events over a line sequence are exactly its `done` data
lines. -/
theorem countFinish_processLines (ls : List (List Char)) :
    countFinish (processLines ls) = ls.countP lineIsDone := by
  induction ls with
  | nil => simp [processLines, countFinish]
  | cons l ls ih =>
    simp only [processLines, List.countP_cons]
    rw [show countFinish (processLine l ++ processLines ls) =
          countFinish (processLine l) + countFinish (processLines ls) from
        List.countP_append _ _ _]
    rw [countFinish_processLine l, ih]
    by_cases h : lineIsDone l
    · simp [h]; omega
    · simp [h]

/-! ### Polling-store lemmas -/

/-- A key is in the map exactly when `get` finds a value. -/
theorem mapHas_eq_isSome (m : List (String × Nat)) (k : String) :
    mapHas m k = (mapGet m k).isSome := by
  induction m with
  | nil => simp [mapHas, mapGet]
  | cons p m ih =>
    by_cases h : p.1 = k
    · simp [mapHas, mapGet, h]
    · simpa [mapHas, mapGet, h] using ih

/-- Deleting a key removes its binding. -/
theorem mapGet_mapDelete (m : List (String × Nat)) (k : String) :
    mapGet (mapDelete m k) k = none := by
  induction m with
  | nil => simp [mapDelete, mapGet]
  | cons p m ih =>
    by_cases h : p.1 = k
    · simpa [mapDelete, List.filter_cons, h] using ih
    · simpa [mapDelete, List.filter_cons, mapGet, h] using ih

/-- Deleting one key leaves every other binding unchanged. -/
theorem mapGet_mapDelete_ne (m : List (String × Nat)) (k k' : String)
    (hk : k' ≠ k) : mapGet (mapDelete m k) k' = mapGet m k' := by
  induction m with
  | nil => simp [mapDelete, mapGet]
  | cons p m ih =>
    by_cases h : p.1 = k
    · have hkk : ¬k = k' := fun hc => hk hc.symm
      simpa [mapDelete, List.filter_cons, mapGet, h, hkk] using ih
    · by_cases h2 : p.1 = k'
      · simp [mapDelete, List.filter_cons, mapGet, h, h2, hk]
      · simpa [mapDelete, List.filter_cons, mapGet, h, h2] using ih

/-- After `stopPolling(jobId)` the job's handle is gone. -/
theorem stopPolling_get_self (st : StoreState) (j : String) :
    mapGet (stopPolling st j).pollingIntervals j = none := by
  unfold stopPolling
  cases h : mapGet st.pollingIntervals j with
  | none => simpa using h
  | some v => simpa using mapGet_mapDelete st.pollingIntervals j

/-- `stopPolling` touches only the handle map, not the job records. -/
theorem stopPolling_jobs (st : StoreState) (j : String) :
    (stopPolling st j).jobs = st.jobs := by
  unfold stopPolling
  cases h : mapGet st.pollingIntervals j <;> simp

/-- `stopPolling(jobId)` leaves the handles of all other jobs
unchanged. -/
theorem stopPolling_get_ne (st : StoreState) (j k : String) (hk : k ≠ j) :
    mapGet (stopPolling st j).pollingIntervals k = mapGet st.pollingIntervals k := by
  unfold stopPolling
  cases h : mapGet st.pollingIntervals j with
  | none => simp
  | some v => simpa using mapGet_mapDelete_ne st.pollingIntervals j k hk

/-- A key absent from the map has no entries at all. -/
theorem countKey_eq_zero (m : List (String × Nat)) (k : String)
    (h : mapHas m k = false) : countKey m k = 0 := by
  unfold mapHas at h
  simp only [List.any_eq_false] at h
  rw [countKey, List.countP_eq_zero]
  intro p hp
  simpa using h p hp

/-! ### Claims about the stream pipeline -/

/-- C1 (counterexample): the normalizer keeps no `finished` flag.  Two
`done` payloads in one stream yield two finish events; a `token` payload
arriving after a `done` still yields its text delta instead of being
dropped; the full byte pipeline shows the same on the wire. -/
theorem C1_counterexample :
    countFinish (processEvents
      [Json.obj [("type", Json.str "done")], Json.obj [("type", Json.str "done")]]) = 2 ∧
    processEvents
      [Json.obj [("type", Json.str "done")],
       Json.obj [("type", Json.str "token"), ("content", Json.str "late")]] =
      [CanonicalEvent.finish "stop" 0 0 0,
       CanonicalEvent.textDelta (some (Json.str "late"))] ∧
    countFinish (transformAgentStreamToUIStream
      [asciiBytes "data: \x7b\"type\":\"done\"\x7d\ndata: \x7b\"type\":\"done\"\x7d\n"]) = 2 :=
  ⟨rfl, rfl, rfl⟩

/-- C1 (amended): the normalizer emits exactly one finish event per `done`
BackendEvent — there is no `finished` flag, so events after the first
`done` are still translated rather than dropped, and a stream with n
`done` events carries n finish events. -/
theorem C1_theorem : ∀ ds : List Json, countFinish (processEvents ds) = countDone ds :=
  countFinish_processEvents

/-- C2: for a fixed byte stream, any two chunkings — including splits
mid-line and inside a multi-byte character — yield the same decoded line
sequence and hence the same canonical event sequence. -/
theorem C2_theorem (cs1 cs2 : List (List Nat)) (h : cs1.flatten = cs2.flatten) :
    decodeLines cs1 = decodeLines cs2 ∧
    transformAgentStreamToUIStream cs1 = transformAgentStreamToUIStream cs2 := by
  have hd := decodeLines_eq_of_join_eq cs1 cs2 h
  refine ⟨hd, ?_⟩
  unfold transformAgentStreamToUIStream
  rw [hd]

/-- C2 (witness): the bytes of `"dé\n"` split inside the two-byte
character `é` decode to the same line as the unsplit stream. -/
theorem C2_witness :
    ([[0x64, 0xC3], [0xA9, 0x0A]] : List (List Nat)).flatten =
      ([[0x64, 0xC3, 0xA9, 0x0A]] : List (List Nat)).flatten ∧
    decodeLines [[0x64, 0xC3], [0xA9, 0x0A]] = decodeLines [[0x64, 0xC3, 0xA9, 0x0A]] ∧
    transformAgentStreamToUIStream [[0x64, 0xC3], [0xA9, 0x0A]] =
      transformAgentStreamToUIStream [[0x64, 0xC3, 0xA9, 0x0A]] ∧
    decodeLines [[0x64, 0xC3], [0xA9, 0x0A]] = [String.toList "dé"] :=
  ⟨by decide, (C2_theorem _ _ (by decide)).1, (C2_theorem _ _ (by decide)).2, rfl⟩

/-- C3 (counterexample): the switch has no `error` case — an
`error`-tagged BackendEvent emits no canonical event at all (in
particular no error event), both at the payload level and through the
full byte pipeline. -/
theorem C3_counterexample :
    normalizeEvent (Json.obj [("type", Json.str "error"), ("message", Json.str "boom")]) = [] ∧
    transformAgentStreamToUIStream
      [asciiBytes "data: \x7b\"type\":\"error\",\"message\":\"boom\"\x7d\n"] = [] :=
  ⟨rfl, rfl⟩

/-- C3 (amended): a BackendEvent of type `error` is dropped by the
normalizer like an unrecognized tag: it produces no CanonicalEvent and
does not terminate normalization — the surrounding events are translated
exactly as if the error event were absent. -/
theorem C3_theorem (a b : List Json) (e : Json) (h : typeTag e = some "error") :
    processEvents (a ++ e :: b) = processEvents a ++ processEvents b := by
  rw [processEvents_append]
  simp only [processEvents]
  rw [normalizeEvent_error e h]
  simp

/-- C3 (witness): an error payload between two token payloads leaves the
surrounding translation unchanged. -/
theorem C3_witness :
    typeTag (Json.obj [("type", Json.str "error"), ("message", Json.str "boom")]) =
      some "error" ∧
    processEvents
        [Json.obj [("type", Json.str "token"), ("content", Json.str "A")],
         Json.obj [("type", Json.str "error"), ("message", Json.str "boom")],
         Json.obj [("type", Json.str "token"), ("content", Json.str "B")]] =
      processEvents [Json.obj [("type", Json.str "token"), ("content", Json.str "A")]] ++
        processEvents [Json.obj [("type", Json.str "token"), ("content", Json.str "B")]] :=
  ⟨rfl,
   C3_theorem [Json.obj [("type", Json.str "token"), ("content", Json.str "A")]]
     [Json.obj [("type", Json.str "token"), ("content", Json.str "B")]]
     (Json.obj [("type", Json.str "error"), ("message", Json.str "boom")]) rfl⟩

/-- C6 (counterexample): the original claim fails on the code.  An
upstream that closes immediately ends the canonical stream after zero
events — neither a finish nor any error-carrying event was observed; an
upstream that closes after one token line and no `done` ends it in a
lone text delta with no finish.  The `CanonicalEvent` type, translated
from the source's `controller.enqueue` calls, has no error-carrying
constructor at all, so "a partial sequence ending in exactly one
errorEvent" is never what the consumer sees: both streams close
silently with neither terminal event. -/
theorem C6_counterexample :
    transformAgentStreamToUIStream [] = [] ∧
    transformAgentStreamToUIStream
        [asciiBytes "data: \x7b\"type\":\"token\",\"content\":\"Hi\"\x7d\n"] =
      [CanonicalEvent.textDelta (some (Json.str "Hi"))] ∧
    countFinish (transformAgentStreamToUIStream
        [asciiBytes "data: \x7b\"type\":\"token\",\"content\":\"Hi\"\x7d\n"]) = 0 :=
  ⟨rfl, rfl, by decide⟩

/-- C6 (amended): the consumer may observe silent termination — the
canonical stream carries a finish event exactly as often as the upstream
delivered `done` data lines, and in particular an upstream close whose
decoded lines contain no `done` data line ends the canonical stream with
no finish at all; the code never emits an error-carrying canonical event
(upstream failures surface through `controller.error` as a stream error
outside the event sequence — see the `CanonicalEvent` doc comment). -/
theorem C6_theorem :
    ∀ chunks : List (List Nat),
      countFinish (transformAgentStreamToUIStream chunks) =
        (decodeLines chunks).countP lineIsDone ∧
      ((decodeLines chunks).countP lineIsDone = 0 →
        countFinish (transformAgentStreamToUIStream chunks) = 0) := by
  intro chunks
  have hcount : countFinish (transformAgentStreamToUIStream chunks) =
      (decodeLines chunks).countP lineIsDone := by
    unfold transformAgentStreamToUIStream
    exact countFinish_processLines (decodeLines chunks)
  exact ⟨hcount, fun hz => hcount.trans hz⟩

/-- C6 (witness): an upstream closing after one token line and no `done`
has zero `done` data lines, so by the theorem its canonical stream ends
with zero finish events — silent termination. -/
theorem C6_witness :
    (decodeLines
        [asciiBytes "data: \x7b\"type\":\"token\",\"content\":\"ok\"\x7d\n"]).countP
      lineIsDone = 0 ∧
    countFinish (transformAgentStreamToUIStream
        [asciiBytes "data: \x7b\"type\":\"token\",\"content\":\"ok\"\x7d\n"]) = 0 :=
  ⟨by decide,
   (C6_theorem
       [asciiBytes "data: \x7b\"type\":\"token\",\"content\":\"ok\"\x7d\n"]).2
     (by decide)⟩

/-- C8: a payload sequence with exactly one `done` yields exactly one
finish event, and the text-delta contents equal, element by element and
in concatenation, the `token` contents in arrival order. -/
theorem C8_theorem (ds : List Json) (h : countDone ds = 1) :
    countFinish (processEvents ds) = 1 ∧
    textDeltas (processEvents ds) = tokenContents ds ∧
    concatTexts (textDeltas (processEvents ds)) = concatTexts (tokenContents ds) :=
  ⟨(countFinish_processEvents ds).trans h, textDeltas_processEvents ds, by
    rw [textDeltas_processEvents ds]⟩

/-- C8 (witness): two tokens followed by one `done`. -/
theorem C8_witness :
    countDone
        [Json.obj [("type", Json.str "token"), ("content", Json.str "Hel")],
         Json.obj [("type", Json.str "token"), ("content", Json.str "lo")],
         Json.obj [("type", Json.str "done")]] = 1 ∧
    (countFinish (processEvents
        [Json.obj [("type", Json.str "token"), ("content", Json.str "Hel")],
         Json.obj [("type", Json.str "token"), ("content", Json.str "lo")],
         Json.obj [("type", Json.str "done")]]) = 1 ∧
      textDeltas (processEvents
        [Json.obj [("type", Json.str "token"), ("content", Json.str "Hel")],
         Json.obj [("type", Json.str "token"), ("content", Json.str "lo")],
         Json.obj [("type", Json.str "done")]]) =
        tokenContents
          [Json.obj [("type", Json.str "token"), ("content", Json.str "Hel")],
           Json.obj [("type", Json.str "token"), ("content", Json.str "lo")],
           Json.obj [("type", Json.str "done")]] ∧
      concatTexts (textDeltas (processEvents
        [Json.obj [("type", Json.str "token"), ("content", Json.str "Hel")],
         Json.obj [("type", Json.str "token"), ("content", Json.str "lo")],
         Json.obj [("type", Json.str "done")]])) =
        concatTexts (tokenContents
          [Json.obj [("type", Json.str "token"), ("content", Json.str "Hel")],
           Json.obj [("type", Json.str "token"), ("content", Json.str "lo")],
           Json.obj [("type", Json.str "done")]])) :=
  ⟨by decide,
   C8_theorem
     [Json.obj [("type", Json.str "token"), ("content", Json.str "Hel")],
      Json.obj [("type", Json.str "token"), ("content", Json.str "lo")],
      Json.obj [("type", Json.str "done")]] (by decide)⟩

/-- C9: blank lines and `:`-comment lines yield no event; a `data: ` line
whose payload fails JSON parsing yields no event; and a no-event line
inserted anywhere does not abort the sequence — the surrounding lines are
processed exactly as without it. -/
theorem C9_theorem :
    (∀ l : List Char, blankLine l = true → processLine l = []) ∧
    (∀ rest : List Char, processLine (':' :: rest) = []) ∧
    (∀ l : List Char, dataMarker.isPrefixOf l = true →
      parseJson (l.drop 6) = none → processLine l = []) ∧
    (∀ (ls1 ls2 : List (List Char)) (bad : List Char), processLine bad = [] →
      processLines (ls1 ++ bad :: ls2) = processLines ls1 ++ processLines ls2) := by
  refine ⟨?_, ?_, ?_, ?_⟩
  · intro l h
    simp [processLine, parseLine, h]
  · intro rest
    simp [processLine, parseLine, blankLine, isJsWsChar]
  · intro l h1 h2
    rw [List.isPrefixOf_iff_prefix] at h1
    obtain ⟨t, rfl⟩ := h1
    have hb : blankLine (dataMarker ++ t) = false := by
      simp [dataMarker, blankLine, isJsWsChar]
    have hh : (dataMarker ++ t).head? = some 'd' := rfl
    have hpre : dataMarker.isPrefixOf (dataMarker ++ t) = true := by
      rw [List.isPrefixOf_iff_prefix]
      exact List.prefix_append _ _
    simp [processLine, parseLine, hb, hh, hpre, h2]
  · intro ls1 ls2 bad hb
    rw [processLines_append]
    simp only [processLines]
    rw [hb]
    simp

/-- C9 (witness): a whitespace line, a comment line, and one invalid-JSON
data line between two valid token lines; both tokens survive. -/
theorem C9_witness :
    blankLine (String.toList "   ") = true ∧
    processLine (String.toList "   ") = [] ∧
    processLine (':' :: String.toList " keepalive") = [] ∧
    dataMarker.isPrefixOf (String.toList "data: \x7bbad") = true ∧
    parseJson ((String.toList "data: \x7bbad").drop 6) = none ∧
    processLine (String.toList "data: \x7bbad") = [] ∧
    processLines
        [String.toList "data: \x7b\"type\":\"token\",\"content\":\"A\"\x7d",
         String.toList "data: \x7bbad",
         String.toList "data: \x7b\"type\":\"token\",\"content\":\"B\"\x7d"] =
      processLines [String.toList "data: \x7b\"type\":\"token\",\"content\":\"A\"\x7d"] ++
        processLines [String.toList "data: \x7b\"type\":\"token\",\"content\":\"B\"\x7d"] ∧
    processLines
        [String.toList "data: \x7b\"type\":\"token\",\"content\":\"A\"\x7d",
         String.toList "data: \x7bbad",
         String.toList "data: \x7b\"type\":\"token\",\"content\":\"B\"\x7d"] =
      [CanonicalEvent.textDelta (some (Json.str "A")),
       CanonicalEvent.textDelta (some (Json.str "B"))] :=
  ⟨by decide,
   C9_theorem.1 (String.toList "   ") (by decide),
   C9_theorem.2.1 (String.toList " keepalive"),
   by decide,
   rfl,
   C9_theorem.2.2.1 (String.toList "data: \x7bbad") (by decide) rfl,
   C9_theorem.2.2.2 [String.toList "data: \x7b\"type\":\"token\",\"content\":\"A\"\x7d"]
     [String.toList "data: \x7b\"type\":\"token\",\"content\":\"B\"\x7d"]
     (String.toList "data: \x7bbad") rfl,
   rfl⟩

/-- C10: only the six-character marker `data: ` (colon followed by one
space) selects a data line — a line starting with `data:` but not
`data: ` is skipped entirely and yields no event. -/
theorem C10_theorem (l : List Char)
    (h1 : (['d', 'a', 't', 'a', ':'] : List Char).isPrefixOf l = true)
    (h2 : dataMarker.isPrefixOf l = false) : processLine l = [] := by
  rw [List.isPrefixOf_iff_prefix] at h1
  obtain ⟨t, rfl⟩ := h1
  have hb : blankLine ('d' :: 'a' :: 't' :: 'a' :: ':' :: t) = false := by
    simp [blankLine, isJsWsChar]
  have hh : ('d' :: 'a' :: 't' :: 'a' :: ':' :: t).head? = some 'd' := rfl
  have h2' : dataMarker.isPrefixOf ('d' :: 'a' :: 't' :: 'a' :: ':' :: t) = false := h2
  simp [processLine, parseLine, hb, hh, h2']

/-- C10 (witness): a `data:`-without-space line carrying otherwise valid
token JSON is dropped. -/
theorem C10_witness :
    (['d', 'a', 't', 'a', ':'] : List Char).isPrefixOf
        (String.toList "data:\x7b\"type\":\"token\",\"content\":\"Hi\"\x7d") = true ∧
    dataMarker.isPrefixOf
        (String.toList "data:\x7b\"type\":\"token\",\"content\":\"Hi\"\x7d") = false ∧
    processLine (String.toList "data:\x7b\"type\":\"token\",\"content\":\"Hi\"\x7d") = [] :=
  ⟨by decide, by decide,
   C10_theorem (String.toList "data:\x7b\"type\":\"token\",\"content\":\"Hi\"\x7d")
     (by decide) (by decide)⟩

/-! ### Claims about the polling store -/

/-- C4: `startPolling` deduplicates — starting again for an already-polled
job id is a strict no-op, so two immediate calls leave exactly one handle
for that job and a tick performs exactly one status fetch, not two. -/
theorem C4_theorem (st : StoreState) (j : String) (t1 t2 : Nat)
    (h : mapHas st.pollingIntervals j = false) :
    startPolling (startPolling st j t1) j t2 = startPolling st j t1 ∧
    countKey (startPolling (startPolling st j t1) j t2).pollingIntervals j = 1 ∧
    ∀ r, (runTicks (startPolling (startPolling st j t1) j t2) j [r]).2.1 = 1 := by
  have h1 : startPolling st j t1 =
      { st with pollingIntervals := st.pollingIntervals ++ [(j, t1)] } := by
    simp [startPolling, h, mapSet]
  have h2 : mapHas (st.pollingIntervals ++ [(j, t1)]) j = true := by
    simp [mapHas]
  have hno : startPolling (startPolling st j t1) j t2 = startPolling st j t1 := by
    rw [h1]
    simp [startPolling, h2]
  refine ⟨hno, ?_, ?_⟩
  · rw [hno, h1]
    simp only [countKey]
    rw [List.countP_append]
    rw [show (st.pollingIntervals.countP fun p => decide (p.1 = j)) = 0 from
      countKey_eq_zero _ _ h]
    simp
  · intro r
    rw [hno, h1]
    simp [runTicks, h2]

/-- C4 (witness): double `startPolling` on a fresh store. -/
theorem C4_witness :
    mapHas (StoreState.mk [] []).pollingIntervals "job-1" = false ∧
    startPolling (startPolling (StoreState.mk [] []) "job-1" 1) "job-1" 2 =
      startPolling (StoreState.mk [] []) "job-1" 1 ∧
    countKey (startPolling (startPolling (StoreState.mk [] []) "job-1" 1) "job-1"
        2).pollingIntervals "job-1" = 1 ∧
    (runTicks (startPolling (startPolling (StoreState.mk [] []) "job-1" 1) "job-1" 2)
        "job-1" [none]).2.1 = 1 :=
  ⟨by decide,
   (C4_theorem (StoreState.mk [] []) "job-1" 1 2 (by decide)).1,
   (C4_theorem (StoreState.mk [] []) "job-1" 1 2 (by decide)).2.1,
   (C4_theorem (StoreState.mk [] []) "job-1" 1 2 (by decide)).2.2 none⟩

/-- C5: a tick whose status fetch returns a terminal status cancels and
removes the job's own handle synchronously, so no further tick fires
(total status fetches stay at one whatever would have followed); a
`completed` fetch triggers exactly one results fetch, a `failed` fetch
triggers none. -/
theorem C5_theorem (st : StoreState) (j : String) (job : EvaluationJob)
    (rs : List (Option EvaluationJob)) (h : mapHas st.pollingIntervals j = true) :
    (job.status = "completed" →
      runTicks st j (some job :: rs) = (stopPolling (updateJob st j job) j, 1, 1)) ∧
    (job.status = "failed" →
      runTicks st j (some job :: rs) = (stopPolling (updateJob st j job) j, 1, 0)) ∧
    mapGet (stopPolling (updateJob st j job) j).pollingIntervals j = none := by
  have hstop_get : mapGet (stopPolling (updateJob st j job) j).pollingIntervals j = none :=
    stopPolling_get_self _ _
  have hstop_has : mapHas (stopPolling (updateJob st j job) j).pollingIntervals j = false := by
    rw [mapHas_eq_isSome, hstop_get]
    rfl
  have hrest : runTicks (stopPolling (updateJob st j job) j) j rs =
      (stopPolling (updateJob st j job) j, 0, 0) := by
    cases rs with
    | nil => rfl
    | cons r rs2 => simp [runTicks, hstop_has]
  refine ⟨?_, ?_, hstop_get⟩
  · intro hc
    have htick : pollTick st j (some job) = (stopPolling (updateJob st j job) j, 1) := by
      simp [pollTick, hc]
    simp [runTicks, h, htick, hrest]
  · intro hc
    have htick : pollTick st j (some job) = (stopPolling (updateJob st j job) j, 0) := by
      simp [pollTick, hc]
    simp [runTicks, h, htick, hrest]

/-- C5 (witness): one polled job; a `completed` fetch and a `failed`
fetch, each followed by a would-be further tick that no longer fires. -/
theorem C5_witness :
    mapHas (StoreState.mk
        [⟨"j1", "d", "basic", [1], "running", none, "t0", none, none, none⟩]
        [("j1", 7)]).pollingIntervals "j1" = true ∧
    (⟨"j1", "d", "basic", [1], "completed", some 100, "t0", none, none, none⟩ :
        EvaluationJob).status = "completed" ∧
    runTicks (StoreState.mk
        [⟨"j1", "d", "basic", [1], "running", none, "t0", none, none, none⟩]
        [("j1", 7)]) "j1"
        (some ⟨"j1", "d", "basic", [1], "completed", some 100, "t0", none, none, none⟩ ::
          [some ⟨"j1", "d", "basic", [1], "completed", some 100, "t0", none, none, none⟩]) =
      (stopPolling (updateJob (StoreState.mk
          [⟨"j1", "d", "basic", [1], "running", none, "t0", none, none, none⟩]
          [("j1", 7)]) "j1"
          ⟨"j1", "d", "basic", [1], "completed", some 100, "t0", none, none, none⟩) "j1",
        1, 1) ∧
    runTicks (StoreState.mk
        [⟨"j1", "d", "basic", [1], "running", none, "t0", none, none, none⟩]
        [("j1", 7)]) "j1"
        (some ⟨"j1", "d", "basic", [1], "failed", none, "t0", none, none, some "err"⟩ ::
          [some ⟨"j1", "d", "basic", [1], "failed", none, "t0", none, none, some "err"⟩]) =
      (stopPolling (updateJob (StoreState.mk
          [⟨"j1", "d", "basic", [1], "running", none, "t0", none, none, none⟩]
          [("j1", 7)]) "j1"
          ⟨"j1", "d", "basic", [1], "failed", none, "t0", none, none, some "err"⟩) "j1",
        1, 0) :=
  ⟨by decide, rfl,
   (C5_theorem (StoreState.mk
       [⟨"j1", "d", "basic", [1], "running", none, "t0", none, none, none⟩]
       [("j1", 7)]) "j1"
       ⟨"j1", "d", "basic", [1], "completed", some 100, "t0", none, none, none⟩
       [some ⟨"j1", "d", "basic", [1], "completed", some 100, "t0", none, none, none⟩]
       (by decide)).1 rfl,
   (C5_theorem (StoreState.mk
       [⟨"j1", "d", "basic", [1], "running", none, "t0", none, none, none⟩]
       [("j1", 7)]) "j1"
       ⟨"j1", "d", "basic", [1], "failed", none, "t0", none, none, some "err"⟩
       [some ⟨"j1", "d", "basic", [1], "failed", none, "t0", none, none, some "err"⟩]
       (by decide)).2.1 rfl⟩

/-- C7: a tick whose status fetch throws cancels only this job's handle:
the stored job records are untouched (the job is not marked failed), no
results fetch happens, and every other job's handle binding is
unchanged. -/
theorem C7_theorem (st : StoreState) (j : String) :
    pollTick st j none = (stopPolling st j, 0) ∧
    (stopPolling st j).jobs = st.jobs ∧
    mapGet (stopPolling st j).pollingIntervals j = none ∧
    ∀ k, k ≠ j → mapGet (stopPolling st j).pollingIntervals k =
      mapGet st.pollingIntervals k := by
  refine ⟨rfl, stopPolling_jobs st j, stopPolling_get_self st j, ?_⟩
  intro k hk
  unfold stopPolling
  cases hg : mapGet st.pollingIntervals j with
  | none => rfl
  | some v => simpa using mapGet_mapDelete_ne st.pollingIntervals j k hk

/-- C7 (witness): two polled jobs; a transport error on `j1` leaves the
job records and `j2`'s handle untouched. -/
theorem C7_witness :
    pollTick (StoreState.mk
        [⟨"j1", "d", "basic", [1], "running", none, "t0", none, none, none⟩]
        [("j1", 5), ("j2", 6)]) "j1" none =
      (stopPolling (StoreState.mk
        [⟨"j1", "d", "basic", [1], "running", none, "t0", none, none, none⟩]
        [("j1", 5), ("j2", 6)]) "j1", 0) ∧
    (stopPolling (StoreState.mk
        [⟨"j1", "d", "basic", [1], "running", none, "t0", none, none, none⟩]
        [("j1", 5), ("j2", 6)]) "j1").jobs =
      [⟨"j1", "d", "basic", [1], "running", none, "t0", none, none, none⟩] ∧
    mapGet (stopPolling (StoreState.mk
        [⟨"j1", "d", "basic", [1], "running", none, "t0", none, none, none⟩]
        [("j1", 5), ("j2", 6)]) "j1").pollingIntervals "j1" = none ∧
    ("j2" : String) ≠ "j1" ∧
    mapGet (stopPolling (StoreState.mk
        [⟨"j1", "d", "basic", [1], "running", none, "t0", none, none, none⟩]
        [("j1", 5), ("j2", 6)]) "j1").pollingIntervals "j2" =
      mapGet (StoreState.mk
        [⟨"j1", "d", "basic", [1], "running", none, "t0", none, none, none⟩]
        [("j1", 5), ("j2", 6)]).pollingIntervals "j2" :=
  ⟨(C7_theorem (StoreState.mk
      [⟨"j1", "d", "basic", [1], "running", none, "t0", none, none, none⟩]
      [("j1", 5), ("j2", 6)]) "j1").1,
   (C7_theorem (StoreState.mk
      [⟨"j1", "d", "basic", [1], "running", none, "t0", none, none, none⟩]
      [("j1", 5), ("j2", 6)]) "j1").2.1,
   (C7_theorem (StoreState.mk
      [⟨"j1", "d", "basic", [1], "running", none, "t0", none, none, none⟩]
      [("j1", 5), ("j2", 6)]) "j1").2.2.1,
   by decide,
   (C7_theorem (StoreState.mk
      [⟨"j1", "d", "basic", [1], "running", none, "t0", none, none, none⟩]
      [("j1", 5), ("j2", 6)]) "j1").2.2.2 "j2" (by decide)⟩
